import Mathlib

/-!
Shallow embedding of `detector_full_candidate_name.py`, the PII
classification-and-masking engine of Project-Guardian-2.0.

A decoded record is a list of (field name, scalar value) pairs, mirroring a
Python dict in insertion order.  Values are strings, integers or null; nested
structures never reach a matchable branch and are out of scope of the claims.
The regular expressions of the source are embedded as executable character
predicates with the same match semantics (anchored `match` vs `search`,
lookarounds of `PHONE10_RE`, word boundaries of `IPV4_RE`, backtracking over
the octet alternation).
-/

namespace Guardian

/-- Scalar JSON value as the Python code sees it: string, integer or null. -/
inductive Val where
  | vStr : String → Val
  | vNum : Int → Val
  | vNull : Val
deriving DecidableEq, Repr

/-- A decoded record: ordered field-name/value pairs (a Python dict). -/
abbrev Record := List (String × Val)

/-- Python `str(v or "")`: falsy values (`None`, `""`, `0`) become `""`,
anything else is rendered with `str`. -/
def valToStr : Val → String
  | .vStr s => s
  | .vNum n => if n = 0 then "" else toString n
  | .vNull => ""

/-- Key set `PHONE_KEYS` of the source. -/
def PHONE_KEYS : List String := ["phone", "contact", "mobile", "whatsapp", "contact_no", "phone_number"]

/-- Key set `AADHAR_KEYS` of the source. -/
def AADHAR_KEYS : List String := ["aadhar", "aadhaar", "aadhar_number"]

/-- Key set `PASSPORT_KEYS` of the source. -/
def PASSPORT_KEYS : List String := ["passport", "passport_no"]

/-- Key set `UPI_KEYS` of the source. -/
def UPI_KEYS : List String := ["upi_id", "vpa", "upi"]

/-- Key set `NAME_KEYS` of the source. -/
def NAME_KEYS : List String := ["name", "first_name", "last_name"]

/-- Key set `EMAIL_KEYS` of the source. -/
def EMAIL_KEYS : List String := ["email", "email_id"]

/-- Key set `ADDR_KEYS` of the source. -/
def ADDR_KEYS : List String := ["address", "residential_address", "shipping_address", "addr", "address_line1"]

/-- Key set `CITY_KEYS` of the source, declared there but never consulted by `find_pii`. -/
def CITY_KEYS : List String := ["city"]

/-- Key set `PIN_KEYS` of the source. -/
def PIN_KEYS : List String := ["pin_code", "pincode"]

/-- Key set `DEVICE_KEYS` of the source. -/
def DEVICE_KEYS : List String := ["device_id"]

/-- Key set `IP_KEYS` of the source. -/
def IP_KEYS : List String := ["ip_address", "ip"]

/-- Regex word character `\w` (ASCII fragment): letter, digit or underscore. -/
def isWordChar (c : Char) : Bool := c.isAlphanum || c = '_'

/-- Python `str.strip()`: drop leading and trailing whitespace. -/
def pyStripList (l : List Char) : List Char :=
  ((l.dropWhile Char.isWhitespace).reverse.dropWhile Char.isWhitespace).reverse

/-- Python `s.strip()` on a string. -/
def pyStrip (s : String) : String := String.mk (pyStripList s.toList)

/-- Python `k.lower()` (ASCII locale of the fixed field vocabulary). -/
def lowerKey (s : String) : String := String.mk (s.toList.map Char.toLower)

/-- Python truthiness of a string: non-empty. -/
def pyBool (s : String) : Bool := !s.toList.isEmpty

/-- Split on a separator character; `cur` is the reversed chunk being built.
Mirrors Python `s.split(sep)`: empty chunks are kept. -/
def splitOnCharAux (sep : Char) (cur : List Char) : List Char → List (List Char)
  | [] => [cur.reverse]
  | c :: rest =>
    if c = sep then cur.reverse :: splitOnCharAux sep [] rest
    else splitOnCharAux sep (c :: cur) rest

/-- Split at every character satisfying `p`, keeping empty chunks; filtering
the empties afterwards gives Python `s.split()`. -/
def splitPredAux (p : Char → Bool) (cur : List Char) : List Char → List (List Char)
  | [] => [cur.reverse]
  | c :: rest =>
    if p c then cur.reverse :: splitPredAux p [] rest
    else splitPredAux p (c :: cur) rest

/-- Join chunks with a separator character between them. -/
def joinChar (sep : Char) : List (List Char) → List Char
  | [] => []
  | [x] => x
  | x :: xs => x ++ sep :: joinChar sep xs

/-- Regex `PHONE10_RE`, ten digits with no adjacent digit, matches at the head of `l` given the
preceding character `prev` (`none` at start of string): ten digits neither
preceded nor followed by a digit. -/
def phone10At (prev : Option Char) (l : List Char) : Bool :=
  (match prev with | some c => !c.isDigit | none => true) &&
  decide (10 ≤ l.length) && (l.take 10).all Char.isDigit &&
  (match l.drop 10 with | c :: _ => !c.isDigit | [] => true)

/-- Scan for `PHONE10_RE` at every position, tracking the previous character. -/
def phone10SearchAux (prev : Option Char) : List Char → Bool
  | [] => false
  | c :: rest => phone10At prev (c :: rest) || phone10SearchAux (some c) rest

/-- Search of `PHONE10_RE`: some standalone 10-digit run occurs in the string. -/
def phone10_search (s : String) : Bool := phone10SearchAux none s.toList

/-- Consume exactly `n` digits, returning the remainder. -/
def consumeDigits : Nat → List Char → Option (List Char)
  | 0, l => some l
  | _ + 1, [] => none
  | n + 1, c :: rest => if c.isDigit then consumeDigits n rest else none

/-- Optional single whitespace then continuation `k`: try both not consuming and consuming one
whitespace character (regex alternation of the optional group). -/
def optWsThen (k : List Char → Bool) : List Char → Bool
  | [] => k []
  | c :: rest => k (c :: rest) || (c.isWhitespace && k rest)

/-- Regex `AADHAR_RE`, three 4-digit groups optionally separated by one whitespace each, as a whole-string match. -/
def aadhar_match (s : String) : Bool :=
  match consumeDigits 4 s.toList with
  | none => false
  | some r1 =>
    optWsThen (fun l2 =>
      match consumeDigits 4 l2 with
      | none => false
      | some r2 =>
        optWsThen (fun l3 =>
          match consumeDigits 4 l3 with
          | none => false
          | some r3 => r3.isEmpty) r2) r1

/-- Regex `PASSPORT_RE`: one letter then exactly 7 digits, whole string. -/
def passport_match (s : String) : Bool :=
  match s.toList with
  | [] => false
  | c :: rest => c.isAlpha && decide (rest.length = 7) && rest.all Char.isDigit

/-- Character class `[\w.\-]` of the UPI local part. -/
def upiLocalChar (c : Char) : Bool := isWordChar c || c = '.' || c = '-'

/-- Character class `[A-Za-z0-9.\-]` of the UPI domain tail. -/
def upiDomainChar (c : Char) : Bool := c.isAlphanum || c = '.' || c = '-'

/-- Regex `UPI_RE`: a 2-plus local part, an at sign, a domain starting with a letter.  Neither class
admits `@`, so the split is at the unique `@`. -/
def upi_match (s : String) : Bool :=
  match splitOnCharAux '@' [] s.toList with
  | [localPart, domain] =>
    decide (2 ≤ localPart.length) && localPart.all upiLocalChar &&
    (match domain with
     | [] => false
     | c :: rest => c.isAlpha && decide (1 ≤ rest.length) && rest.all upiDomainChar)
  | _ => false

/-- Character class `[A-Za-z0-9._%+\-]` of the email local part. -/
def emailLocalChar (c : Char) : Bool :=
  c.isAlphanum || c = '.' || c = '_' || c = '%' || c = '+' || c = '-'

/-- Character class `[A-Za-z0-9.\-]` of the email domain body. -/
def emailDomainChar (c : Char) : Bool := c.isAlphanum || c = '.' || c = '-'

/-- Top-level label of `EMAIL_RE`: at least two letters to end of string. -/
def emailTld (l : List Char) : Bool := decide (2 ≤ l.length) && l.all Char.isAlpha

/-- Search a split of the domain as `[A-Za-z0-9.\-]+` `.` `[A-Za-z]{2,}$`;
`acc` is the reversed prefix consumed so far. -/
def emailDomSearch (acc : List Char) : List Char → Bool
  | [] => false
  | '.' :: rest =>
    (!acc.isEmpty && acc.all emailDomainChar && emailTld rest) || emailDomSearch ('.' :: acc) rest
  | c :: rest => emailDomSearch (c :: acc) rest

/-- Scan for the `@` of `EMAIL_RE`; `acc` is the reversed local part. -/
def emailScanAux (acc : List Char) : List Char → Bool
  | [] => false
  | '@' :: rest => !acc.isEmpty && acc.all emailLocalChar && emailDomSearch [] rest
  | c :: rest => emailScanAux (c :: acc) rest

/-- Regex `EMAIL_RE`: local part, an at sign, a dotted domain with an alphabetic top-level label of 2 or more letters, whole string. -/
def email_match (s : String) : Bool := emailScanAux [] s.toList

/-- All the ways the octet alternation `25[0-5]|2[0-4]\d|1?\d{1,2}` can match
a prefix of `l`, as the list of possible remainders (regex backtracking). -/
def octetParses (l : List Char) : List (List Char) :=
  (match l with
   | '2' :: '5' :: c :: rest => if '0' ≤ c && c ≤ '5' then [rest] else []
   | _ => []) ++
  (match l with
   | '2' :: c :: d :: rest => if '0' ≤ c && c ≤ '4' && d.isDigit then [rest] else []
   | _ => []) ++
  (match l with
   | '1' :: d :: e :: rest => if d.isDigit && e.isDigit then [rest] else []
   | _ => []) ++
  (match l with
   | d :: e :: rest => if d.isDigit && e.isDigit then [rest] else []
   | _ => []) ++
  (match l with
   | d :: rest => if d.isDigit then [rest] else []
   | _ => [])

/-- Regex `IPV4_RE` matches at the head of `l`: four octets separated by dots,
with a trailing word boundary. -/
def ipv4At (l : List Char) : Bool :=
  (octetParses l).any fun r1 =>
    match r1 with
    | '.' :: l2 =>
      (octetParses l2).any fun r2 =>
        match r2 with
        | '.' :: l3 =>
          (octetParses l3).any fun r3 =>
            match r3 with
            | '.' :: l4 =>
              (octetParses l4).any fun r4 =>
                match r4 with
                | [] => true
                | c :: _ => !isWordChar c
            | _ => false
        | _ => false
    | _ => false

/-- Scan for `IPV4_RE` with its leading word boundary (`prev` is the
character before the current position). -/
def ipv4SearchAux (prev : Option Char) : List Char → Bool
  | [] => false
  | c :: rest =>
    ((match prev with | none => true | some p => !isWordChar p) && ipv4At (c :: rest)) ||
    ipv4SearchAux (some c) rest

/-- Search of `IPV4_RE`: a dotted-quad IPv4 address occurs in the string. -/
def ipv4_search (s : String) : Bool := ipv4SearchAux none s.toList

/-- Set a key in an association list, overwriting in place if present,
appending otherwise — one step of building a Python dict. -/
def setAssoc (m : List (String × String)) (k v : String) : List (String × String) :=
  if m.any (fun p => p.1 = k) then m.map (fun p => if p.1 = k then (k, v) else p)
  else m ++ [(k, v)]

/-- Normalized view of the record, the dict comprehension of `find_pii`: keys lowered, values stringified; later entries
whose lowered key collides overwrite earlier ones. -/
def normalize (record : Record) : List (String × String) :=
  record.foldl (fun m kv => setAssoc m (lowerKey kv.1) (valToStr kv.2)) []

/-- Python dict lookup, as an option. -/
def getOpt (m : List (String × String)) (k : String) : Option String :=
  (m.find? (fun p => p.1 = k)).map (fun p => p.2)

/-- Python dict lookup with a default. -/
def getDef (m : List (String × String)) (k d : String) : String :=
  (getOpt m k).getD d

/-- Per-category presence flags, the result of `find_pii`. -/
structure PiiFlags where
  phone : Bool
  aadhar : Bool
  passport : Bool
  upi : Bool
  email : Bool
  ip : Bool
  device : Bool
  name : Bool
  address : Bool
deriving DecidableEq, Repr

/-- Generator pattern of `find_pii`: some entry whose key is in `keys` and whose value satisfies `p`. -/
def anyKV (m : List (String × String)) (keys : List String) (p : String → Bool) : Bool :=
  m.any (fun kv => keys.contains kv.1 && p kv.2)

/-- Digits kept by `re.sub(r"\D", "", v)`. -/
def digitsOf (s : String) : List Char := s.toList.filter Char.isDigit

/-- Body of the source's `find_pii` as a function of the already-normalized
record. -/
def flagsOfNormalized (normalized : List (String × String)) : PiiFlags :=
  let has_name :=
    pyBool (pyStrip (getDef normalized "name" "")) ||
    (match getOpt normalized "first_name", getOpt normalized "last_name" with
     | some a, some b => pyBool a && pyBool b
     | _, _ => false)
  let has_addr := anyKV normalized ADDR_KEYS (fun v => pyBool v)
  let has_pin := normalized.any (fun kv => PIN_KEYS.contains kv.1 && decide ((digitsOf kv.2).length = 6))
  { phone := anyKV normalized PHONE_KEYS (fun v => phone10_search v)
  , aadhar := anyKV normalized AADHAR_KEYS (fun v => aadhar_match (pyStrip v))
  , passport := anyKV normalized PASSPORT_KEYS (fun v => passport_match (pyStrip v))
  , upi := anyKV normalized UPI_KEYS (fun v => upi_match (pyStrip v))
  , email := anyKV normalized EMAIL_KEYS (fun v => email_match (pyStrip v))
  , ip := anyKV normalized IP_KEYS (fun v => ipv4_search v)
  , device := anyKV normalized DEVICE_KEYS (fun v => pyBool v)
  , name := has_name
  , address := has_addr && has_pin }

/-- Function `find_pii` of the source: normalize the record, then compute the
per-category flags. -/
def find_pii (record : Record) : PiiFlags :=
  flagsOfNormalized (normalize record)

/-- Core of the source's `mask_string` on a character list: keep `vs` leading and
`ve` trailing characters, fill the middle with `ch`; if nothing would remain
masked, fill the whole string. -/
def maskStringList (l : List Char) (vs ve : Nat) (ch : Char) : List Char :=
  if l.isEmpty then []
  else if l.length ≤ vs + ve then List.replicate l.length ch
  else l.take vs ++ List.replicate (l.length - (vs + ve)) ch ++ l.drop (l.length - ve)

/-- Function `mask_string` of the source with the default filler character. -/
def mask_string (s : String) (vs ve : Nat) : String :=
  String.mk (maskStringList s.toList vs ve 'X')

/-- Substitution pass of `mask_phone`: replace each
standalone 10-digit run by first 2, six `X`, last 2; scanning resumes after
the run, whose last digit is the look-behind character.  `fuel` only bounds
the recursion and starts at the list length. -/
def maskPhoneAux : Nat → Option Char → List Char → List Char
  | 0, _, l => l
  | _ + 1, _, [] => []
  | fuel + 1, prev, c :: rest =>
    if phone10At prev (c :: rest) then
      let run := (c :: rest).take 10
      run.take 2 ++ List.replicate 6 'X' ++ run.drop 8 ++
        maskPhoneAux fuel (some (run.getLastD 'X')) ((c :: rest).drop 10)
    else c :: maskPhoneAux fuel (some c) rest

/-- Function `mask_phone` of the source. -/
def mask_phone (s : String) : String :=
  String.mk (maskPhoneAux s.toList.length none s.toList)

/-- Function `mask_aadhar` of the source: strip whitespace, demand 12 digits, keep the
last 4; otherwise the sentinel. -/
def mask_aadhar (s : String) : String :=
  let digits := s.toList.filter (fun c => !c.isWhitespace)
  if digits.length = 12 && digits.all Char.isDigit then
    "XXXX XXXX " ++ String.mk (digits.drop 8)
  else "[REDACTED_PII]"

/-- Function `mask_passport` of the source: mask the stripped value keeping 1 leading and 2 trailing characters. -/
def mask_passport (s : String) : String := mask_string (pyStrip s) 1 2

/-- Function `mask_email` of the source: sentinel when no at sign, else mask the local
part with `mask_string(user, 2, 0)` and keep the domain. -/
def mask_email (s : String) : String :=
  match splitOnCharAux '@' [] s.toList with
  | [] => "[REDACTED_PII]"
  | [_] => "[REDACTED_PII]"
  | user :: rest => String.mk (maskStringList user 2 0 'X' ++ '@' :: joinChar '@' rest)

/-- Function `mask_name` of the source: keep each token's first character, fill the
rest with `X`, rejoin with single spaces. -/
def mask_name (s : String) : String :=
  let parts := (splitPredAux Char.isWhitespace [] s.toList).filter (fun p => !p.isEmpty)
  String.mk (joinChar ' ' (parts.map (fun p => p.take 1 ++ List.replicate (p.length - 1) 'X')))

/-- Function `mask_address` of the source: full suppression. -/
def mask_address (_s : String) : String := "[REDACTED_PII]"

/-- Function `mask_pin` of the source: mask the digit-only content keeping the last 2 characters. -/
def mask_pin (s : String) : String := String.mk (maskStringList (digitsOf s) 0 2 'X')

/-- Function `mask_ip` of the source: full suppression. -/
def mask_ip (_s : String) : String := "***.***.***.***"

/-- Flag `strong_pii` of `main`: some strong category is present. -/
def strong_pii (f : PiiFlags) : Bool := f.phone || f.aadhar || f.passport || f.upi

/-- Count `weak_pii_count` of `main`: how many weak categories are present. -/
def weak_pii_count (f : PiiFlags) : Nat :=
  [f.name, f.email, f.address, f.device, f.ip].countP (fun b => b)

/-- Verdict `is_pii` of `main`: strong category present, or at least two weak ones. -/
def is_pii (record : Record) : Bool :=
  let f := find_pii record
  strong_pii f || decide (2 ≤ weak_pii_count f)

/-- One pass of the `if/elif` dispatch of `main`'s redaction loop over a
single field: mask with the category's masker when the lowered key belongs
to the category's alias set and the category's flag is up, else pass the
field through unchanged. -/
def redactField (f : PiiFlags) (kv : String × Val) : String × Val :=
  let k := kv.1
  let val_str := valToStr kv.2
  let kl := lowerKey k
  if PHONE_KEYS.contains kl && f.phone then (k, .vStr (mask_phone val_str))
  else if AADHAR_KEYS.contains kl && f.aadhar then (k, .vStr (mask_aadhar val_str))
  else if PASSPORT_KEYS.contains kl && f.passport then (k, .vStr (mask_passport val_str))
  else if EMAIL_KEYS.contains kl && f.email then (k, .vStr (mask_email val_str))
  else if NAME_KEYS.contains kl && f.name then (k, .vStr (mask_name val_str))
  else if ADDR_KEYS.contains kl && f.address then (k, .vStr (mask_address val_str))
  else if PIN_KEYS.contains kl && f.address then (k, .vStr (mask_pin val_str))
  else if IP_KEYS.contains kl && f.ip then (k, .vStr (mask_ip val_str))
  else kv

/-- The per-record body of `main`: when `is_pii`, run the redaction loop over
every field; otherwise dump the record as-is. -/
def redact_record (record : Record) : Record :=
  if is_pii record then record.map (redactField (find_pii record))
  else record

/-- The disjunction of the eight masking branch guards of `main`'s loop:
exactly when one of them fires for lowered key `kl`. -/
def fieldTouched (f : PiiFlags) (kl : String) : Bool :=
  (PHONE_KEYS.contains kl && f.phone) || (AADHAR_KEYS.contains kl && f.aadhar) ||
  (PASSPORT_KEYS.contains kl && f.passport) || (EMAIL_KEYS.contains kl && f.email) ||
  (NAME_KEYS.contains kl && f.name) || (ADDR_KEYS.contains kl && f.address) ||
  (PIN_KEYS.contains kl && f.address) || (IP_KEYS.contains kl && f.ip)

/-- Lowered key `kl` belongs to the alias set of some category whose flag is
up, the pin-code fields counting as aliases of the address category.  This is
the claim-level notion of "field of a triggered category". -/
def inTriggeredAlias (f : PiiFlags) (kl : String) : Bool :=
  (PHONE_KEYS.contains kl && f.phone) || (AADHAR_KEYS.contains kl && f.aadhar) ||
  (PASSPORT_KEYS.contains kl && f.passport) || (UPI_KEYS.contains kl && f.upi) ||
  (EMAIL_KEYS.contains kl && f.email) || (NAME_KEYS.contains kl && f.name) ||
  ((ADDR_KEYS.contains kl || PIN_KEYS.contains kl) && f.address) ||
  (IP_KEYS.contains kl && f.ip) || (DEVICE_KEYS.contains kl && f.device)

/-- Follows the spec's words for claim C4: a standalone 6-digit run matches at
the head of `l` given the preceding character. -/
def sixDigitRunAt (prev : Option Char) (l : List Char) : Bool :=
  (match prev with | some c => !c.isDigit | none => true) &&
  decide (6 ≤ l.length) && (l.take 6).all Char.isDigit &&
  (match l.drop 6 with | c :: _ => !c.isDigit | [] => true)

/-- Scan helper for `six_digit_search`. -/
def sixDigitSearchAux (prev : Option Char) : List Char → Bool
  | [] => false
  | c :: rest => sixDigitRunAt prev (c :: rest) || sixDigitSearchAux (some c) rest

/-- Follows the spec's words for claim C4: a 6-digit postal code occurs
somewhere in the string. -/
def six_digit_search (s : String) : Bool := sixDigitSearchAux none s.toList

/-- Follows the spec's words for claim C4: the address category is present
exactly when an address-aliased field is non-empty and either a city field is
non-empty or a 6-digit postal code is present in a pin field or embedded in
the address text. -/
def specAddressPresent (record : Record) : Bool :=
  let normalized := normalize record
  anyKV normalized ADDR_KEYS (fun v => pyBool v) &&
  (anyKV normalized CITY_KEYS (fun v => pyBool v) ||
   normalized.any (fun kv => PIN_KEYS.contains kv.1 && decide ((digitsOf kv.2).length = 6)) ||
   anyKV normalized ADDR_KEYS (fun v => six_digit_search v))

/-- Follows the spec's words for claim C5: the whitespace-separated tokens of
a value that are purely alphabetic. -/
def alphaTokens (s : String) : List (List Char) :=
  (splitPredAux Char.isWhitespace [] s.toList).filter
    (fun t => !t.isEmpty && t.all Char.isAlpha)

/-- Follows the spec's words for claim C5: the name category is present
exactly when a name-aliased field holds at least two alphabetic tokens, or a
first-name and a last-name field are simultaneously non-empty. -/
def specNamePresent (record : Record) : Bool :=
  let normalized := normalize record
  anyKV normalized NAME_KEYS (fun v => decide (2 ≤ (alphaTokens v).length)) ||
  (match getOpt normalized "first_name", getOpt normalized "last_name" with
   | some a, some b => pyBool a && pyBool b
   | _, _ => false)

end Guardian

namespace Guardian

/-- C1: a `upi`-aliased field holding a valid UPI value makes the record PII,
yet the redaction loop of `main` has no upi branch, so the value is written
back unchanged instead of being masked.  This exercises the code at the
failing input of the claim. -/
theorem upi_field_passes_through :
    upi_match "alice@okbank" = true ∧
    is_pii [("upi", Val.vStr "alice@okbank")] = true ∧
    redact_record [("upi", Val.vStr "alice@okbank")] = [("upi", Val.vStr "alice@okbank")] :=
  ⟨by decide, by decide, by decide⟩

/-- C2 counterexample: a record holding only a device identifier and an IP
address — no name, email or phone field — is classified as PII by the code,
because no user-context gate exists; the claim says it must be non-PII. -/
theorem device_ip_alone_is_pii :
    is_pii [("device_id", Val.vStr "abc"), ("ip_address", Val.vStr "1.2.3.4")] = true := by
  decide

/-- Evaluation of `find_pii` on a device-plus-ip record, symbolic in the two
values. -/
theorem find_pii_dev_ip (d ipv : String) :
    find_pii [("device_id", Val.vStr d), ("ip_address", Val.vStr ipv)] =
      ⟨false, false, false, false, false, ipv4_search ipv || false, pyBool d || false,
       false, false⟩ := rfl

/-- Evaluation of `find_pii` on a device-only record, symbolic in the value. -/
theorem find_pii_dev (d : String) :
    find_pii [("device_id", Val.vStr d)] =
      ⟨false, false, false, false, false, false, pyBool d || false, false, false⟩ := rfl

/-- Helper: a single weak flag (here `device`) never reaches the threshold. -/
theorem oneWeakFlagBelowThreshold (b : Bool) :
    (strong_pii ⟨false, false, false, false, false, false, b || false, false, false⟩ ||
      decide (2 ≤ weak_pii_count
        ⟨false, false, false, false, false, false, b || false, false, false⟩)) = false := by
  cases b <;> decide

/-- C2 amended: the code applies no user-context gate — `device` and `ip`
count toward the weak total on their own, so any record holding a non-empty
device identifier and a valid IP address is PII, while a device identifier
alone (one weak category) is not. -/
theorem no_user_context_gate :
    (∀ d ipv : String, pyBool d = true → ipv4_search ipv = true →
      is_pii [("device_id", Val.vStr d), ("ip_address", Val.vStr ipv)] = true) ∧
    (∀ d : String, is_pii [("device_id", Val.vStr d)] = false) := by
  constructor
  · intro d ipv hd hip
    simp only [is_pii, find_pii_dev_ip d ipv, hd, hip]
    decide
  · intro d
    simp only [is_pii, find_pii_dev d]
    exact oneWeakFlagBelowThreshold (pyBool d)

/-- Witness for the C2 amended theorem at concrete inputs. -/
theorem no_user_context_gate_witness :
    pyBool "abc" = true ∧ ipv4_search "1.2.3.4" = true ∧
    is_pii [("device_id", Val.vStr "abc"), ("ip_address", Val.vStr "1.2.3.4")] = true ∧
    is_pii [("device_id", Val.vStr "abc")] = false :=
  ⟨by decide, by decide,
   no_user_context_gate.1 "abc" "1.2.3.4" (by decide) (by decide),
   no_user_context_gate.2 "abc"⟩

/-- C3: `is_pii` is exactly strong-category presence or a weak-category count
of at least 2; the empty record and a lone weak category are non-PII, a lone
valid strong category is PII. -/
theorem is_pii_threshold :
    (∀ r : Record,
      is_pii r = (strong_pii (find_pii r) || decide (2 ≤ weak_pii_count (find_pii r)))) ∧
    is_pii [] = false ∧
    is_pii [("email", Val.vStr "a@b.com")] = false ∧
    is_pii [("phone", Val.vStr "9876543210")] = true :=
  ⟨fun _ => rfl, by decide, by decide, by decide⟩

/-- C4 counterexample: an address field plus a non-empty city field satisfies
the claimed rule, yet the code leaves the address category absent — `find_pii`
only accepts a 6-digit pin-keyed field and never consults `CITY_KEYS`. -/
theorem address_with_city_not_present :
    specAddressPresent [("address", Val.vStr "12 MG Road"), ("city", Val.vStr "Bangalore")] = true ∧
    (find_pii [("address", Val.vStr "12 MG Road"), ("city", Val.vStr "Bangalore")]).address = false := by
  constructor <;> decide

/-- C4 amended: the address category is present exactly when an
address-aliased field is non-empty and a pin-keyed field holds exactly 6
digits; city fields and postal codes embedded in the address text are
ignored. -/
theorem address_requires_pin_field :
    (∀ r : Record, (find_pii r).address =
      (anyKV (normalize r) ADDR_KEYS (fun v => pyBool v) &&
       (normalize r).any (fun kv => PIN_KEYS.contains kv.1 && decide ((digitsOf kv.2).length = 6)))) ∧
    (find_pii [("address", Val.vStr "12 MG Road"), ("pin_code", Val.vStr "560001")]).address = true ∧
    (find_pii [("address", Val.vStr "12 MG Road 560001")]).address = false ∧
    (find_pii [("pin_code", Val.vStr "560001")]).address = false :=
  ⟨fun _ => rfl, by decide, by decide, by decide⟩

/-- C5 counterexample: a single-token value in a `name` field does not
satisfy the claimed two-alphabetic-token rule, yet the code marks the name
category present — any non-blank `name` value counts. -/
theorem single_token_name_counts :
    specNamePresent [("name", Val.vStr "Asha")] = false ∧
    (find_pii [("name", Val.vStr "Asha")]).name = true := by
  constructor <;> decide

/-- C5 amended: the name category is present exactly when the normalized
`name` field is non-blank after stripping, or both `first_name` and
`last_name` are present and non-empty; the token count is never examined. -/
theorem name_is_nonblank_or_first_last :
    (∀ r : Record, (find_pii r).name =
      (pyBool (pyStrip (getDef (normalize r) "name" "")) ||
       (match getOpt (normalize r) "first_name", getOpt (normalize r) "last_name" with
        | some a, some b => pyBool a && pyBool b
        | _, _ => false))) ∧
    (find_pii [("name", Val.vStr "Asha")]).name = true ∧
    (find_pii [("first_name", Val.vStr "Asha"), ("last_name", Val.vStr "Rao")]).name = true ∧
    (find_pii [("first_name", Val.vStr "Asha")]).name = false ∧
    (find_pii [("name", Val.vStr "   ")]).name = false :=
  ⟨fun _ => rfl, by decide, by decide, by decide, by decide⟩

/-- Rebuilding a string from its character list is the identity. -/
theorem mk_toList (s : String) : String.mk s.toList = s := rfl

/-- When no position matches the phone pattern, the substitution pass leaves
the character list untouched. -/
theorem maskPhoneAux_no_match :
    ∀ (fuel : Nat) (prev : Option Char) (l : List Char),
      phone10SearchAux prev l = false → maskPhoneAux fuel prev l = l := by
  intro fuel
  induction fuel with
  | zero => intro prev l _; rfl
  | succ n ih =>
    intro prev l h
    cases l with
    | nil => rfl
    | cons c rest =>
      rw [phone10SearchAux, Bool.or_eq_false_iff] at h
      rw [maskPhoneAux, if_neg (by simp [h.1])]
      rw [ih (some c) rest h.2]

/-- With no standalone 10-digit run, `mask_phone` is the identity. -/
theorem mask_phone_of_no_run (s : String) (h : phone10_search s = false) :
    mask_phone s = s := by
  unfold mask_phone
  rw [maskPhoneAux_no_match _ _ _ h]
  exact mk_toList s

/-- When the whitespace-stripped content is not 12 digits, `mask_aadhar`
returns the sentinel. -/
theorem mask_aadhar_of_bad_shape (s : String)
    (h : ((s.toList.filter (fun c => !c.isWhitespace)).length = 12 &&
          (s.toList.filter (fun c => !c.isWhitespace)).all Char.isDigit) = false) :
    mask_aadhar s = "[REDACTED_PII]" := by
  simp only [mask_aadhar, h]
  rfl

/-- Splitting on a separator that does not occur yields the single chunk. -/
theorem splitOnCharAux_of_no_sep (sep : Char) :
    ∀ (l cur : List Char), sep ∉ l → splitOnCharAux sep cur l = [cur.reverse ++ l] := by
  intro l
  induction l with
  | nil => intro cur _; simp [splitOnCharAux]
  | cons c rest ih =>
    intro cur h
    rw [splitOnCharAux, if_neg (fun he => h (List.mem_cons.mpr (Or.inl he.symm)))]
    rw [ih (c :: cur) (fun hm => h (List.mem_cons_of_mem _ hm))]
    simp

/-- Without an at sign in the value, `mask_email` returns the sentinel. -/
theorem mask_email_of_no_at (s : String) (h : '@' ∉ s.toList) :
    mask_email s = "[REDACTED_PII]" := by
  unfold mask_email
  rw [splitOnCharAux_of_no_sep '@' s.toList [] h]

/-- C6 counterexample: `mask_phone` applied to a value without a standalone
10-digit run returns the input unchanged — the original string, not a
sentinel, contradicting the claimed degradation to a fixed sentinel. -/
theorem mask_phone_returns_original : mask_phone "hello" = "hello" := by decide

/-- C6 amended: every masker is total, and on non-matching input `mask_aadhar`
and `mask_email` degrade to the fixed sentinel, but `mask_phone` returns the
input unchanged (its substitution simply finds nothing to replace). -/
theorem maskers_on_bad_input :
    (∀ s : String, phone10_search s = false → mask_phone s = s) ∧
    (∀ s : String, ((s.toList.filter (fun c => !c.isWhitespace)).length = 12 &&
        (s.toList.filter (fun c => !c.isWhitespace)).all Char.isDigit) = false →
      mask_aadhar s = "[REDACTED_PII]") ∧
    (∀ s : String, '@' ∉ s.toList → mask_email s = "[REDACTED_PII]") :=
  ⟨mask_phone_of_no_run, mask_aadhar_of_bad_shape, mask_email_of_no_at⟩

/-- Witness for the C6 amended theorem at concrete inputs. -/
theorem maskers_on_bad_input_witness :
    phone10_search "hello" = false ∧ mask_phone "hello" = "hello" ∧
    mask_aadhar "12345" = "[REDACTED_PII]" ∧ mask_email "nope" = "[REDACTED_PII]" :=
  ⟨by decide, maskers_on_bad_input.1 "hello" (by decide),
   maskers_on_bad_input.2.1 "12345" (by decide),
   maskers_on_bad_input.2.2 "nope" (by decide)⟩

/-- An alphabetic character is not whitespace. -/
theorem isAlpha_not_ws (c : Char) (h : c.isAlpha = true) : c.isWhitespace = false := by
  refine Bool.eq_false_iff.mpr (fun hw => ?_)
  have hor : c = ' ' ∨ c = '\t' ∨ c = '\r' ∨ c = '\n' := by
    simpa [Char.isWhitespace, or_assoc] using hw
  rcases hor with h1 | h1 | h1 | h1 <;> subst h1 <;> exact absurd h (by decide)

/-- A digit character is not whitespace. -/
theorem isDigit_not_ws (c : Char) (h : c.isDigit = true) : c.isWhitespace = false := by
  refine Bool.eq_false_iff.mpr (fun hw => ?_)
  have hor : c = ' ' ∨ c = '\t' ∨ c = '\r' ∨ c = '\n' := by
    simpa [Char.isWhitespace, or_assoc] using hw
  rcases hor with h1 | h1 | h1 | h1 <;> subst h1 <;> exact absurd h (by decide)

/-- Dropping while a predicate that fails everywhere leaves the list as is. -/
theorem dropWhile_of_all_neg (p : Char → Bool) :
    ∀ l : List Char, (∀ x ∈ l, p x = false) → l.dropWhile p = l := by
  intro l h
  cases l with
  | nil => rfl
  | cons c rest =>
    rw [List.dropWhile_cons, h c (List.mem_cons_self c rest)]
    simp

/-- Stripping is the identity on whitespace-free content. -/
theorem pyStripList_id (l : List Char) (h : ∀ x ∈ l, x.isWhitespace = false) :
    pyStripList l = l := by
  unfold pyStripList
  rw [dropWhile_of_all_neg _ l h,
    dropWhile_of_all_neg _ l.reverse (fun x hx => h x (List.mem_reverse.mp hx)),
    List.reverse_reverse]

/-- C7 counterexample: on the valid passport value A1234567 the masker yields
AXXXXX67 — the last two digits of the original stay visible, so digits of the
original remain in the output, contradicting the claim that all 7 digits are
replaced. -/
theorem mask_passport_leaves_digits :
    mask_passport "A1234567" = "AXXXXX67" ∧
    ((mask_passport "A1234567").toList.any Char.isDigit) = true := by
  constructor <;> decide

/-- C7 amended: on a valid passport value (letter then 7 digits) the masker
keeps the leading letter AND the last two digits, replacing only the middle
five digits with filler. -/
theorem mask_passport_keeps_last_two (c : Char) (ds : List Char) (hc : c.isAlpha = true)
    (h7 : ds.length = 7) (hd : ds.all Char.isDigit = true) :
    mask_passport (String.mk (c :: ds)) =
      String.mk (c :: (List.replicate 5 'X' ++ ds.drop 5)) := by
  have hnw : ∀ x ∈ c :: ds, x.isWhitespace = false := by
    intro x hx
    rcases List.mem_cons.mp hx with h1 | h1
    · rw [h1]; exact isAlpha_not_ws c hc
    · exact isDigit_not_ws x (List.all_eq_true.mp hd x h1)
  have h1 : mask_passport (String.mk (c :: ds)) =
      String.mk (maskStringList (pyStripList (c :: ds)) 1 2 'X') := rfl
  rw [h1, pyStripList_id _ hnw]
  congr 1
  unfold maskStringList
  simp [h7]

/-- Witness for the C7 amended theorem at a concrete passport value. -/
theorem mask_passport_keeps_last_two_witness :
    Char.isAlpha 'A' = true ∧
    (['1', '2', '3', '4', '5', '6', '7'] : List Char).length = 7 ∧
    (['1', '2', '3', '4', '5', '6', '7'] : List Char).all Char.isDigit = true ∧
    mask_passport (String.mk ('A' :: ['1', '2', '3', '4', '5', '6', '7'])) =
      String.mk ('A' :: (List.replicate 5 'X' ++ (['1', '2', '3', '4', '5', '6', '7'] : List Char).drop 5)) :=
  ⟨by decide, by decide, by decide,
   mask_passport_keeps_last_two 'A' ['1', '2', '3', '4', '5', '6', '7']
     (by decide) (by decide) (by decide)⟩

/-- A conjunction with a disjunction on the left is false only if both
distributed conjunctions are. -/
theorem or_and_false (a b c : Bool) (h : ((a || b) && c) = false) :
    (a && c) = false ∧ (b && c) = false := by
  revert h
  cases a <;> cases b <;> cases c <;> decide

/-- A field whose lowered key belongs to no triggered category's alias set is
left unchanged by the redaction dispatch. -/
theorem redactField_of_untouched (f : PiiFlags) (kv : String × Val)
    (h : inTriggeredAlias f (lowerKey kv.1) = false) : redactField f kv = kv := by
  simp only [inTriggeredAlias, Bool.or_eq_false_iff] at h
  obtain ⟨⟨⟨⟨⟨⟨⟨⟨h1, h2⟩, h3⟩, h4⟩, h5⟩, h6⟩, h7⟩, h8⟩, h9⟩ := h
  obtain ⟨h7a, h7b⟩ := or_and_false _ _ _ h7
  simp only [redactField]
  rw [if_neg (Bool.eq_false_iff.mp h1), if_neg (Bool.eq_false_iff.mp h2),
    if_neg (Bool.eq_false_iff.mp h3), if_neg (Bool.eq_false_iff.mp h5),
    if_neg (Bool.eq_false_iff.mp h6), if_neg (Bool.eq_false_iff.mp h7a),
    if_neg (Bool.eq_false_iff.mp h7b), if_neg (Bool.eq_false_iff.mp h8)]

/-- C9: fields outside every triggered category's alias set pass through
byte-identical — value and type preserved — and a record whose verdict is
non-PII is returned entirely unchanged. -/
theorem untriggered_fields_pass_through :
    (∀ r : Record, is_pii r = false → redact_record r = r) ∧
    (∀ (r : Record) (kv : String × Val), kv ∈ r →
      inTriggeredAlias (find_pii r) (lowerKey kv.1) = false → kv ∈ redact_record r) := by
  constructor
  · intro r h
    simp [redact_record, h]
  · intro r kv hkv hunt
    by_cases hp : is_pii r = true
    · simp only [redact_record, hp, if_true]
      have hmem := List.mem_map_of_mem (redactField (find_pii r)) hkv
      rwa [redactField_of_untouched (find_pii r) kv hunt] at hmem
    · have hp2 : is_pii r = false := by
        revert hp; cases is_pii r <;> simp
      simp [redact_record, hp2, hkv]

/-- Witness for the C9 theorem at concrete records. -/
theorem untriggered_fields_pass_through_witness :
    is_pii [("email", Val.vStr "a@b.com")] = false ∧
    redact_record [("email", Val.vStr "a@b.com")] = [("email", Val.vStr "a@b.com")] ∧
    (("order_id", Val.vNum 7) ∈
      ([("phone", Val.vStr "9876543210"), ("order_id", Val.vNum 7)] : Record)) ∧
    inTriggeredAlias (find_pii [("phone", Val.vStr "9876543210"), ("order_id", Val.vNum 7)])
      (lowerKey "order_id") = false ∧
    ("order_id", Val.vNum 7) ∈
      redact_record [("phone", Val.vStr "9876543210"), ("order_id", Val.vNum 7)] :=
  ⟨by decide, untriggered_fields_pass_through.1 _ (by decide), by decide, by decide,
   untriggered_fields_pass_through.2 _ ("order_id", Val.vNum 7) (by decide) (by decide)⟩

/-- A pin-keyed field is dispatched to `mask_pin` whenever the address flag
is up. -/
theorem redactField_pin (f : PiiFlags) (k : String) (v : Val)
    (hk : PIN_KEYS.contains (lowerKey k) = true) (haddr : f.address = true) :
    redactField f (k, v) = (k, Val.vStr (mask_pin (valToStr v))) := by
  have hkl : lowerKey k = "pin_code" ∨ lowerKey k = "pincode" := by
    simpa [PIN_KEYS, List.contains_cons] using hk
  rcases hkl with h1 | h1 <;>
    (simp only [redactField]; rw [h1, haddr]; rfl)

/-- Shape of `mask_pin` on content with at least 3 digits: everything but the
last two digits becomes filler. -/
theorem mask_pin_shape (s : String) (h : 3 ≤ (digitsOf s).length) :
    mask_pin s = String.mk (List.replicate ((digitsOf s).length - 2) 'X' ++
      (digitsOf s).drop ((digitsOf s).length - 2)) := by
  have hne : (digitsOf s).isEmpty = false := by
    cases hd : digitsOf s
    · rw [hd] at h; simp at h
    · rfl
  simp only [mask_pin, maskStringList, hne]
  rw [if_neg (by omega : ¬ ((digitsOf s).length ≤ 0 + 2))]
  simp

/-- C10: in a PII record whose address category is triggered, every pin-keyed
field is replaced by `mask_pin` of its stringified value, and `mask_pin`
keeps only the last two of the digit-only content visible, filling the rest
with X. -/
theorem pin_fields_masked_to_last_two :
    (∀ (r : Record) (k : String) (v : Val), (k, v) ∈ r →
      PIN_KEYS.contains (lowerKey k) = true → is_pii r = true →
      (find_pii r).address = true →
      (k, Val.vStr (mask_pin (valToStr v))) ∈ redact_record r) ∧
    (∀ s : String, 3 ≤ (digitsOf s).length →
      mask_pin s = String.mk (List.replicate ((digitsOf s).length - 2) 'X' ++
        (digitsOf s).drop ((digitsOf s).length - 2))) := by
  constructor
  · intro r k v hkv hpk hpii haddr
    simp only [redact_record, hpii, if_true]
    have hmem := List.mem_map_of_mem (redactField (find_pii r)) hkv
    rwa [redactField_pin (find_pii r) k v hpk haddr] at hmem
  · exact mask_pin_shape

/-- Witness for the C10 theorem at a concrete record. -/
theorem pin_fields_masked_to_last_two_witness :
    (("pin_code", Val.vStr "560001") ∈
      ([("address", Val.vStr "12 MG Road"), ("pin_code", Val.vStr "560001"),
        ("name", Val.vStr "Asha Rao")] : Record)) ∧
    PIN_KEYS.contains (lowerKey "pin_code") = true ∧
    is_pii [("address", Val.vStr "12 MG Road"), ("pin_code", Val.vStr "560001"),
      ("name", Val.vStr "Asha Rao")] = true ∧
    (find_pii [("address", Val.vStr "12 MG Road"), ("pin_code", Val.vStr "560001"),
      ("name", Val.vStr "Asha Rao")]).address = true ∧
    ("pin_code", Val.vStr (mask_pin (valToStr (Val.vStr "560001")))) ∈
      redact_record [("address", Val.vStr "12 MG Road"), ("pin_code", Val.vStr "560001"),
        ("name", Val.vStr "Asha Rao")] ∧
    3 ≤ (digitsOf "560001").length ∧
    mask_pin "560001" = String.mk (List.replicate ((digitsOf "560001").length - 2) 'X' ++
      (digitsOf "560001").drop ((digitsOf "560001").length - 2)) :=
  ⟨by decide, by decide, by decide, by decide,
   pin_fields_masked_to_last_two.1 _ "pin_code" (Val.vStr "560001")
     (by decide) (by decide) (by decide) (by decide),
   by decide,
   pin_fields_masked_to_last_two.2 "560001" (by decide)⟩

/-- Keys of `setAssoc` come from the map or are the inserted key. -/
theorem key_of_setAssoc {m : List (String × String)} {k v : String} {p : String × String}
    (hp : p ∈ setAssoc m k v) : p.1 = k ∨ ∃ q ∈ m, p.1 = q.1 := by
  unfold setAssoc at hp
  by_cases hc : (m.any (fun q => q.1 = k)) = true
  · rw [if_pos hc] at hp
    obtain ⟨q, hq, hpq⟩ := List.mem_map.mp hp
    by_cases hqk : q.1 = k
    · rw [if_pos hqk] at hpq
      exact Or.inl (hpq ▸ rfl)
    · rw [if_neg hqk] at hpq
      exact Or.inr ⟨q, hq, hpq ▸ rfl⟩
  · rw [if_neg hc] at hp
    rcases List.mem_append.mp hp with h | h
    · exact Or.inr ⟨p, h, rfl⟩
    · rw [List.mem_singleton.mp h]
      exact Or.inl rfl

/-- Keys accumulated by the normalization fold come from the accumulator or
from the lowered keys of the record. -/
theorem key_of_normalizeAux :
    ∀ (r : Record) (m : List (String × String)) (p : String × String),
      p ∈ r.foldl (fun m kv => setAssoc m (lowerKey kv.1) (valToStr kv.2)) m →
      (∃ q ∈ m, p.1 = q.1) ∨ ∃ kv ∈ r, p.1 = lowerKey kv.1 := by
  intro r
  induction r with
  | nil => intro m p hp; exact Or.inl ⟨p, hp, rfl⟩
  | cons x t ih =>
    intro m p hp
    rw [List.foldl_cons] at hp
    rcases ih _ p hp with ⟨q, hq, hpq⟩ | ⟨kv, hkv, hpkv⟩
    · rcases key_of_setAssoc hq with h | ⟨q2, hq2, hqq⟩
      · exact Or.inr ⟨x, List.mem_cons_self x t, hpq.trans h⟩
      · exact Or.inl ⟨q2, hq2, hpq.trans hqq⟩
    · exact Or.inr ⟨kv, List.mem_cons_of_mem _ hkv, hpkv⟩

/-- Every key of the normalized record is the lowered key of some field. -/
theorem key_of_normalize (r : Record) (p : String × String) (hp : p ∈ normalize r) :
    ∃ kv ∈ r, p.1 = lowerKey kv.1 := by
  rcases key_of_normalizeAux r [] p hp with ⟨q, hq, _⟩ | h
  · simp at hq
  · exact h

/-- Appending a field whose lowered key is fresh extends the normalized
record by one entry, colliding with nothing. -/
theorem normalize_append_fresh (r : Record) (k : String) (v : Val)
    (hfresh : ∀ kv ∈ r, lowerKey kv.1 ≠ lowerKey k) :
    normalize (r ++ [(k, v)]) = normalize r ++ [(lowerKey k, valToStr v)] := by
  unfold normalize
  rw [List.foldl_append, List.foldl_cons, List.foldl_nil]
  unfold setAssoc
  rw [if_neg ?hno]
  case hno =>
    intro hany
    rw [List.any_eq_true] at hany
    obtain ⟨p, hp, hpk⟩ := hany
    have hpk2 : p.1 = lowerKey k := of_decide_eq_true hpk
    obtain ⟨kv, hkv, hkey⟩ := key_of_normalize r p hp
    exact hfresh kv hkv (hkey.symm.trans hpk2)

/-- Appending an element preserves a positive `any`. -/
theorem any_append_left {α : Type} (l : List α) (e : α) (p : α → Bool)
    (h : l.any p = true) : (l ++ [e]).any p = true := by
  rw [List.any_append, h, Bool.true_or]

/-- Appending an entry keeps an existing first match of `find?`-based lookup. -/
theorem getOpt_append (n : List (String × String)) (e : String × String)
    (key s : String) (h : getOpt n key = some s) : getOpt (n ++ [e]) key = some s := by
  unfold getOpt at h ⊢
  rw [List.find?_append]
  obtain ⟨q, hq, hq2⟩ := Option.map_eq_some'.mp h
  rw [hq]
  simpa using hq2

/-- Every per-category flag computed from the normalized record survives
appending one more entry. -/
theorem flagsOfNormalized_mono (n : List (String × String)) (e : String × String) :
    ((flagsOfNormalized n).phone = true → (flagsOfNormalized (n ++ [e])).phone = true) ∧
    ((flagsOfNormalized n).aadhar = true → (flagsOfNormalized (n ++ [e])).aadhar = true) ∧
    ((flagsOfNormalized n).passport = true → (flagsOfNormalized (n ++ [e])).passport = true) ∧
    ((flagsOfNormalized n).upi = true → (flagsOfNormalized (n ++ [e])).upi = true) ∧
    ((flagsOfNormalized n).email = true → (flagsOfNormalized (n ++ [e])).email = true) ∧
    ((flagsOfNormalized n).ip = true → (flagsOfNormalized (n ++ [e])).ip = true) ∧
    ((flagsOfNormalized n).device = true → (flagsOfNormalized (n ++ [e])).device = true) ∧
    ((flagsOfNormalized n).name = true → (flagsOfNormalized (n ++ [e])).name = true) ∧
    ((flagsOfNormalized n).address = true → (flagsOfNormalized (n ++ [e])).address = true) := by
  refine ⟨fun h => any_append_left n e _ h, fun h => any_append_left n e _ h,
    fun h => any_append_left n e _ h, fun h => any_append_left n e _ h,
    fun h => any_append_left n e _ h, fun h => any_append_left n e _ h,
    fun h => any_append_left n e _ h, ?_, ?_⟩
  · intro h
    have h2 : (pyBool (pyStrip (getDef n "name" "")) ||
        (match getOpt n "first_name", getOpt n "last_name" with
         | some a, some b => pyBool a && pyBool b
         | _, _ => false)) = true := h
    rw [Bool.or_eq_true] at h2
    show (pyBool (pyStrip (getDef (n ++ [e]) "name" "")) ||
        (match getOpt (n ++ [e]) "first_name", getOpt (n ++ [e]) "last_name" with
         | some a, some b => pyBool a && pyBool b
         | _, _ => false)) = true
    rw [Bool.or_eq_true]
    rcases h2 with h2 | h2
    · left
      cases hg : getOpt n "name" with
      | none =>
        unfold getDef at h2
        rw [hg] at h2
        exact absurd h2 (by decide)
      | some s =>
        unfold getDef at h2 ⊢
        rw [hg] at h2
        rw [getOpt_append n e "name" s hg]
        exact h2
    · right
      cases hf : getOpt n "first_name" <;> cases hl : getOpt n "last_name" <;>
        rw [hf, hl] at h2
      case none.none => exact Bool.noConfusion h2
      case none.some => exact Bool.noConfusion h2
      case some.none => exact Bool.noConfusion h2
      case some.some a b =>
        rw [getOpt_append n e "first_name" _ hf, getOpt_append n e "last_name" _ hl]
        exact h2
  · intro h
    have h2 : (anyKV n ADDR_KEYS (fun v => pyBool v) &&
        n.any (fun kv => PIN_KEYS.contains kv.1 && decide ((digitsOf kv.2).length = 6))) = true := h
    rw [Bool.and_eq_true] at h2
    show (anyKV (n ++ [e]) ADDR_KEYS (fun v => pyBool v) &&
        (n ++ [e]).any (fun kv => PIN_KEYS.contains kv.1 && decide ((digitsOf kv.2).length = 6))) = true
    rw [Bool.and_eq_true]
    exact ⟨any_append_left n e _ h2.1, any_append_left n e _ h2.2⟩

/-- An implication between booleans, as a boolean. -/
theorem bool_imp_or (a b : Bool) (h : a = true → b = true) : (!a || b) = true := by
  cases a
  · rfl
  · simp [h rfl]

/-- Componentwise-implied four-way disjunctions are monotone. -/
theorem or4_mono : ∀ a b c d a2 b2 c2 d2 : Bool,
    ((!a || a2) && (!b || b2) && (!c || c2) && (!d || d2)) = true →
    (a || b || c || d) = true → (a2 || b2 || c2 || d2) = true := by decide

/-- Componentwise-implied five-element boolean lists have monotone counts. -/
theorem countP_five_mono : ∀ a b c d e a2 b2 c2 d2 e2 : Bool,
    ((!a || a2) && (!b || b2) && (!c || c2) && (!d || d2) && (!e || e2)) = true →
    [a, b, c, d, e].countP (fun x => x) ≤ [a2, b2, c2, d2, e2].countP (fun x => x) := by
  decide

/-- C8 counterexample: `is_pii` is not monotonic in the field set — adding the
field Phone (capital P) with a junk value to a PII record shadows the lowered
key phone in the normalized dict, the valid value is lost, and the verdict
flips from true to false. -/
theorem case_collision_breaks_monotonicity :
    is_pii [("phone", Val.vStr "9876543210")] = true ∧
    is_pii [("phone", Val.vStr "9876543210"), ("Phone", Val.vStr "x")] = false := by
  constructor <;> decide

/-- C8 amended: `is_pii` is monotonic under adding a field whose lowered name
collides with no existing field's lowered name; a case-colliding addition can
overwrite the witnessing value in the normalized dict and flip the verdict. -/
theorem is_pii_mono_of_fresh_key (r : Record) (k : String) (v : Val)
    (hfresh : ∀ kv ∈ r, lowerKey kv.1 ≠ lowerKey k) (h : is_pii r = true) :
    is_pii (r ++ [(k, v)]) = true := by
  obtain ⟨m1, m2, m3, m4, m5, m6, m7, m8, m9⟩ :=
    flagsOfNormalized_mono (normalize r) (lowerKey k, valToStr v)
  have hfind : find_pii (r ++ [(k, v)]) =
      flagsOfNormalized (normalize r ++ [(lowerKey k, valToStr v)]) := by
    show flagsOfNormalized (normalize (r ++ [(k, v)])) = _
    rw [normalize_append_fresh r k v hfresh]
  have hh : (strong_pii (flagsOfNormalized (normalize r)) ||
      decide (2 ≤ weak_pii_count (flagsOfNormalized (normalize r)))) = true := h
  rw [Bool.or_eq_true] at hh
  show (strong_pii (find_pii (r ++ [(k, v)])) ||
      decide (2 ≤ weak_pii_count (find_pii (r ++ [(k, v)])))) = true
  rw [hfind, Bool.or_eq_true]
  rcases hh with hs | hw
  · left
    exact or4_mono _ _ _ _ _ _ _ _
      (by simp [bool_imp_or _ _ m1, bool_imp_or _ _ m2, bool_imp_or _ _ m3,
        bool_imp_or _ _ m4]) hs
  · right
    have hle := of_decide_eq_true hw
    refine decide_eq_true ?_
    exact le_trans hle (countP_five_mono _ _ _ _ _ _ _ _ _ _
      (by simp [bool_imp_or _ _ m8, bool_imp_or _ _ m5, bool_imp_or _ _ m9,
        bool_imp_or _ _ m7, bool_imp_or _ _ m6]))

/-- Witness for the C8 amended theorem at a concrete record and fresh key. -/
theorem is_pii_mono_of_fresh_key_witness :
    (∀ kv ∈ ([("phone", Val.vStr "9876543210")] : Record),
      lowerKey kv.1 ≠ lowerKey "city") ∧
    is_pii [("phone", Val.vStr "9876543210")] = true ∧
    is_pii ([("phone", Val.vStr "9876543210")] ++ [("city", Val.vStr "B")]) = true :=
  ⟨by decide, by decide,
   is_pii_mono_of_fresh_key [("phone", Val.vStr "9876543210")] "city" (Val.vStr "B")
     (by decide) (by decide)⟩

end Guardian
